import Mathlib

/-!
Verification of the AliCloud OSS output binding
(`bindings/alicloud/oss/oss.go` of `components-contrib`).

The Go adapter is embedded shallowly: each handler becomes a Lean
function of the invocation request together with oracles giving the
results of the external SDK calls made during that execution
(`client.Bucket`, `bucket.GetObject`, `ioutil.ReadAll`,
`bucket.GetObjectDetailedMeta`, `bucket.PutObject`,
`bucket.DeleteObject`, `bucket.ListObjects`).  Each handler also
returns the trace of SDK-level events it performed, so that claims
about "no network call is made" and about resource release are
statements about the trace.  Go byte slices are `List Nat`,
Go `map[string]string` is an association list with Go-map lookup
semantics (keys unique, first match), and Go's multiple return
`(*T, error)` becomes an explicit `Outcome`.
-/

namespace AliOss

/-- Go `map[string]string` lookup: `val, ok := m[k]`. -/
def lookupMeta : List (String × String) → String → Option String
  | [], _ => none
  | (k, v) :: rest, q => if k = q then some v else lookupMeta rest q

/-- `bindings.InvokeRequest`: operation name, data bytes, metadata map. -/
structure InvokeRequest where
  operation : String
  data : List Nat
  metadata : List (String × String)
deriving DecidableEq

/-- `bindings.InvokeResponse`: data bytes and metadata map. -/
structure InvokeResponse where
  data : List Nat
  metadata : List (String × String)
deriving DecidableEq

/-- Go `&bindings.InvokeResponse{}`: nil data, nil metadata. -/
def emptyResponse : InvokeResponse := ⟨[], []⟩

/-- `oss.ServiceError` (the fields `get` inspects: HTTP status and OSS code). -/
structure ServiceError where
  statusCode : Int
  code : String
deriving DecidableEq

/-- An error returned by an SDK call: either an `oss.ServiceError` (so the
Go type assertion `err.(oss.ServiceError)` succeeds) or any other error. -/
inductive SdkError where
  | service (e : ServiceError)
  | generic (msg : String)
deriving DecidableEq

/-- SDK-level events a handler can perform, with the arguments the claims
need to observe.  `acquireBody` is the acquisition of the response body
handle returned by `GetObject`; `closeBody` is `body.Close()`. -/
inductive Event where
  | bucketCall
  | getObjectCall
  | acquireBody
  | closeBody
  | readAllCall
  | getMetaCall
  | putObjectCall (key : String) (body : List Nat) (opts : List (String × String))
  | deleteObjectCall
  | listObjectsCall (pfx marker : String) (maxKeys : Int) (delim : String)
deriving DecidableEq

/-- Result of a handler: the Go `(*bindings.InvokeResponse, error)` pair,
plus `crash` for a Go runtime panic (nil-interface dereference). -/
inductive Outcome where
  | ok (resp : InvokeResponse)
  | err (msg : String)
  | crash
deriving DecidableEq

/-- The `key` extraction shared by `get` and `delete`:
`if val, ok := req.Metadata[metadataKey]; ok && val != ""`. -/
def requiredKey (md : List (String × String)) : Option String :=
  match lookupMeta md "key" with
  | some v => if v = "" then none else some v
  | none => none

/-- Oracle for the SDK calls one execution of `get` makes.
`getObject` is the `(io.ReadCloser, error)` pair of `bucket.GetObject`:
on error the returned body handle is nil (`.error e`), on success it is
the object's byte stream (`.ok body`).  `readAllErr` is the error of
`ioutil.ReadAll` on the acquired body (none = success, yielding the body
bytes); `getMeta` is the result of `bucket.GetObjectDetailedMeta`, an
HTTP header map with multi-valued entries. -/
structure GetOracle where
  bucketErr : Option String
  getObject : Except SdkError (List Nat)
  readAllErr : Option String
  getMeta : Except String (List (String × List String))

/-- `(s *AliCloudOSS) get`, translated line by line from oss.go.
Note the source's control flow on a fetch error: only a non-ServiceError
returns immediately; a ServiceError with status 404 and code NoSuchKey
returns an empty response; any OTHER ServiceError falls out of the
`if err != nil` block and proceeds to `defer body.Close()` and
`ioutil.ReadAll(body)` with a nil body, a runtime panic (`crash`). -/
def get (o : GetOracle) (req : InvokeRequest) : Outcome × List Event :=
  match requiredKey req.metadata with
  | none => (.err "alicloud oss binding error: can't read key value", [])
  | some _ =>
    match o.bucketErr with
    | some e => (.err ("alicloud oss binding error: error getting bucket : " ++ e), [.bucketCall])
    | none =>
      match o.getObject with
      | .error (.generic msg) =>
        (.err ("alicloud oss binding error: error getting object : " ++ msg),
         [.bucketCall, .getObjectCall])
      | .error (.service se) =>
        if se.statusCode = 404 ∧ se.code = "NoSuchKey" then
          (.ok emptyResponse, [.bucketCall, .getObjectCall])
        else
          (.crash, [.bucketCall, .getObjectCall])
      | .ok body =>
        match o.readAllErr with
        | some e =>
          (.err ("alicloud oss binding error: error reading object : " ++ e),
           [.bucketCall, .getObjectCall, .acquireBody, .readAllCall, .closeBody])
        | none =>
          match o.getMeta with
          | .error e =>
            (.err ("alicloud oss binding error: error reading metadata : " ++ e),
             [.bucketCall, .getObjectCall, .acquireBody, .readAllCall, .getMetaCall, .closeBody])
          | .ok meta =>
            (.ok ⟨body, meta.map (fun kv => (kv.1, String.intercalate " " kv.2))⟩,
             [.bucketCall, .getObjectCall, .acquireBody, .readAllCall, .getMetaCall, .closeBody])

/-- Oracle for the SDK calls one execution of `delete` makes. -/
structure DeleteOracle where
  bucketErr : Option String
  deleteErr : Option String

/-- `(s *AliCloudOSS) delete`, translated from oss.go. -/
def delete (o : DeleteOracle) (req : InvokeRequest) : Outcome × List Event :=
  match requiredKey req.metadata with
  | none => (.err "alicloud oss binding error: can't read key value", [])
  | some _ =>
    match o.bucketErr with
    | some e => (.err ("alicloud oss binding error: error getting bucket : " ++ e), [.bucketCall])
    | none =>
      match o.deleteErr with
      | some e => (.err ("alicloud oss binding error: error deleting : " ++ e),
                   [.bucketCall, .deleteObjectCall])
      | none => (.ok emptyResponse, [.bucketCall, .deleteObjectCall])

/-- The option-collection loop of `create`:
`for k, v := range req.Metadata { if k == "key" { continue }; options = append(options, oss.Meta(k, v)) }`.
Each `oss.Meta(k, v)` option is kept as the pair `(k, v)`. -/
def collectOptions : List (String × String) → List (String × String)
  | [] => []
  | (k, v) :: rest => if k = "key" then collectOptions rest else (k, v) :: collectOptions rest

/-- Oracle for the SDK calls one execution of `create` makes. -/
structure CreateOracle where
  bucketErr : Option String
  putErr : Option String

/-- `(s *AliCloudOSS) create`, translated from oss.go.  `gen` is the
string returned by the external identifier generator `uuid.New().String()`
in this execution, used only when the metadata has no non-empty `key`. -/
def create (o : CreateOracle) (gen : String) (req : InvokeRequest) : Outcome × List Event :=
  let key := match lookupMeta req.metadata "key" with
    | some v => if v = "" then gen else v
    | none => gen
  match o.bucketErr with
  | some e => (.err ("alicloud oss binding error: error getting bucket failed : " ++ e),
               [.bucketCall])
  | none =>
    let options := collectOptions req.metadata
    match o.putErr with
    | some e => (.err ("alicloud oss binding error: error putting object " ++ e),
                 [.bucketCall, .putObjectCall key req.data options])
    | none => (.ok emptyResponse, [.bucketCall, .putObjectCall key req.data options])

/-- Hex digit character, lowercase, as produced by the identifier
generator's string encoding. -/
def hexDigit (n : Nat) : Char :=
  if n < 10 then Char.ofNat (48 + n) else Char.ofNat (87 + n)

/-- Two hex characters of one byte. -/
def byteHexChars (b : Nat) : List Char := [hexDigit (b / 16 % 16), hexDigit (b % 16)]

/-- Hex characters of a byte list. -/
def bytesHexChars (bs : List Nat) : List Char :=
  bs.foldr (fun b acc => byteHexChars b ++ acc) []

/-- Modelled from the spec: the external identifier-generation utility
(`uuid.New().String()`), out of scope of the repository, renders 16
random bytes in the canonical 8-4-4-4-12 hex form.  Only its output
format matters to the claims: the resulting key string. -/
def uuidString (bs : List Nat) : String :=
  ⟨bytesHexChars (bs.take 4) ++ '-' ::
   (bytesHexChars ((bs.drop 4).take 2) ++ '-' ::
    (bytesHexChars ((bs.drop 6).take 2) ++ '-' ::
     (bytesHexChars ((bs.drop 8).take 2) ++ '-' :: bytesHexChars (bs.drop 10))))⟩

/-- A pair survives the option-collection loop exactly when its key is
not `key` and it is an entry of the metadata map. -/
theorem mem_collectOptions (md : List (String × String)) (p : String × String) :
    p ∈ collectOptions md ↔ p.1 ≠ "key" ∧ p ∈ md := by
  induction md with
  | nil => simp [collectOptions]
  | cons q rest ih =>
    obtain ⟨k, v⟩ := q
    simp only [collectOptions]
    by_cases hk : k = "key"
    · rw [if_pos hk, ih]
      subst hk
      constructor
      · rintro ⟨h1, h2⟩
        exact ⟨h1, List.mem_cons_of_mem _ h2⟩
      · rintro ⟨h1, h2⟩
        rcases List.mem_cons.mp h2 with rfl | h3
        · exact absurd rfl h1
        · exact ⟨h1, h3⟩
    · rw [if_neg hk]
      constructor
      · intro hmem
        rcases List.mem_cons.mp hmem with rfl | h3
        · exact ⟨hk, List.mem_cons_self _ _⟩
        · obtain ⟨h1, h2⟩ := ih.mp h3
          exact ⟨h1, List.mem_cons_of_mem _ h2⟩
      · rintro ⟨h1, h2⟩
        rcases List.mem_cons.mp h2 with rfl | h3
        · exact List.mem_cons_self _ _
        · exact List.mem_cons_of_mem _ (ih.mpr ⟨h1, h3⟩)

/-- The rendered identifier always contains a dash, hence is never the
empty string. -/
theorem uuidString_ne_empty (bs : List Nat) : uuidString bs ≠ "" := by
  have h : '-' ∈ (uuidString bs).data := by
    simp [uuidString]
  intro he
  rw [he] at h
  exact absurd h (by decide)

/-- `listPayload` (oss.go): the decoded list query.  The Go field
`Prefix` (json tag `prefix`) is called `pfx` here because `prefix` is a
Lean keyword; `MaxKeys` is an `int32` in Go, embedded as `Int`. -/
structure listPayload where
  marker : String
  pfx : String
  maxKeys : Int
  delimiter : String
deriving DecidableEq

/-- The opaque `oss.ListObjectsResult` value returned by the SDK. -/
structure ListResult where
  raw : List Nat
deriving DecidableEq

/-- Oracle for the SDK calls one execution of `list` makes.
`listObjects` is a function of the four filter arguments the handler
passes, so that two executions issuing the same call see the same
result; `marshal` is `json.Marshal` on the listing result. -/
structure ListOracle where
  bucketErr : Option String
  listObjects : String → String → Int → String → Except String ListResult
  marshal : ListResult → Except String (List Nat)

/-- `(s *AliCloudOSS) list`, translated from oss.go: bucket lookup,
query decode, the `MaxKeys == 0` default to 1000, the listing call with
Prefix/Marker/MaxKeys/Delimiter, and re-encoding of the result.
`decoded` is the result of `json.Unmarshal(req.Data, &payload)`
(`.error` = decode error). -/
def list (o : ListOracle) (decoded : Except String listPayload) : Outcome × List Event :=
  match o.bucketErr with
  | some e => (.err ("alicloud oss binding error: error getting bucket : " ++ e), [.bucketCall])
  | none =>
    match decoded with
    | .error e =>
      (.err ("aliyun oss binding error. list operation. cannot unmarshal json to blobs: " ++ e),
       [.bucketCall])
    | .ok p0 =>
      let p := if p0.maxKeys = 0 then { p0 with maxKeys := 1000 } else p0
      match o.listObjects p.pfx p.marker p.maxKeys p.delimiter with
      | .error e =>
        (.err ("aliyun oss binding error. error listing objects: " ++ e),
         [.bucketCall, .listObjectsCall p.pfx p.marker p.maxKeys p.delimiter])
      | .ok result =>
        match o.marshal result with
        | .error e =>
          (.err ("aliyun oss binding error. list operation. cannot marshal blobs to json: " ++ e),
           [.bucketCall, .listObjectsCall p.pfx p.marker p.maxKeys p.delimiter])
        | .ok bytes =>
          (.ok ⟨bytes, []⟩,
           [.bucketCall, .listObjectsCall p.pfx p.marker p.maxKeys p.delimiter])

/-- The oracles of all four handlers, for the dispatcher. -/
structure Oracles where
  createO : CreateOracle
  gen : String
  getO : GetOracle
  delO : DeleteOracle
  listO : ListOracle
  listDecoded : Except String listPayload

/-- `(s *AliCloudOSS) Invoke`, translated from oss.go.  The operation
kind constants of the host runtime are the strings create, get,
delete and list. -/
def Invoke (o : Oracles) (req : InvokeRequest) : Outcome × List Event :=
  if req.operation = "create" then create o.createO o.gen req
  else if req.operation = "get" then get o.getO req
  else if req.operation = "delete" then delete o.delO req
  else if req.operation = "list" then list o.listO o.listDecoded
  else (.err ("aliyun oss binding error. unsupported operation " ++ req.operation), [])

/-- `ossMetadata` (oss.go): the typed connection configuration. -/
structure ossMetadata where
  endpoint : String
  accessKeyID : String
  accessKey : String
  bucket : String
deriving DecidableEq

/-- The adapter state: `metadata` and `client` pointer fields of
`AliCloudOSS`, nil (`none`) until `Init` assigns them; the client handle
is opaque. -/
structure AliCloudOSS where
  metadata : Option ossMetadata
  client : Option Nat
deriving DecidableEq

/-- `(s *AliCloudOSS) Init`, translated from oss.go: parse, then build
the client, and only after both succeed assign the two fields.
`parseRes` and `getClientRes` are the results of `s.parseMetadata` and
`s.getClient` in this execution. -/
def Init (s : AliCloudOSS) (parseRes : Except String ossMetadata)
    (getClientRes : ossMetadata → Except String Nat) : AliCloudOSS × Option String :=
  match parseRes with
  | .error e => (s, some e)
  | .ok m =>
    match getClientRes m with
    | .error e => (s, some e)
    | .ok c => ({ s with metadata := some m, client := some c }, none)

/-- One step of the case folding Go's JSON decoder applies when
matching an object key against an ASCII field name: ASCII uppercase
letters fold to lowercase, and the two non-ASCII characters whose
simple case-fold class contains an ASCII letter fold into it —
U+212A (Kelvin sign) to k and U+017F (long s) to s.  Every other
character folds only within non-ASCII classes, so it is kept as is. -/
def foldChar (c : Char) : Char :=
  if 65 ≤ c.toNat ∧ c.toNat ≤ 90 then Char.ofNat (c.toNat + 32)
  else if c.toNat = 0x212A then 'k'
  else if c.toNat = 0x17F then 's'
  else c

/-- Case-insensitive key matching as used by Go's JSON decoder when
assigning an object entry to a struct field (`equalFoldRight` /
`foldRune`): for the ASCII tags of `ossMetadata`, equality of the
case-folded characters, including the Kelvin-sign and long-s folds. -/
def foldEq (k tag : String) : Bool := k.data.map foldChar == tag.data.map foldChar

/-- The order in which `json.Marshal` sorts the keys of a Go map:
byte-wise on the UTF-8 encoding, which coincides with codepoint-wise
lexicographic order because UTF-8 is order-preserving. -/
def charListLe : List Char → List Char → Bool
  | [], _ => true
  | _ :: _, [] => false
  | c :: cs, d :: ds =>
    if c.toNat < d.toNat then true
    else if d.toNat < c.toNat then false
    else charListLe cs ds

/-- Key order on strings. -/
def keyLe (a b : String) : Bool := charListLe a.data b.data

/-- Insertion into a key-sorted association list. -/
def insertSorted (p : String × String) : List (String × String) → List (String × String)
  | [] => [p]
  | q :: qs => if keyLe p.1 q.1 then p :: q :: qs else q :: insertSorted p qs

/-- The property map in the order in which `json.Marshal` emits a Go
map: keys sorted ascending. -/
def sortByKey (l : List (String × String)) : List (String × String) :=
  l.foldr insertSorted []

/-- The value `json.Unmarshal` leaves in the struct field with json tag
`tag`: object entries are processed in marshalled (sorted) order, each
entry whose key matches the tag case-insensitively overwrites the
field, and the field's zero value is the empty string. -/
def fieldValue (tag : String) (props : List (String × String)) : String :=
  (sortByKey props).foldl (fun acc kv => if foldEq kv.1 tag then kv.2 else acc) ""

/-- `(s *AliCloudOSS) parseMetadata` (oss.go): `json.Marshal` of
`metadata.Properties` followed by `json.Unmarshal` into `ossMetadata`.
Marshalling a `map[string]string` and unmarshalling into string fields
cannot fail, so the two error paths are dead and the model is total. -/
def parseMetadata (props : List (String × String)) : ossMetadata :=
  { endpoint := fieldValue "endpoint" props
    accessKeyID := fieldValue "accessKeyID" props
    accessKey := fieldValue "accessKey" props
    bucket := fieldValue "bucket" props }

/-- `(tag, v)` is an entry of the property map, and the only entry whose
key matches `tag` case-insensitively. -/
abbrev soleMatch (props : List (String × String)) (tag v : String) : Prop :=
  (tag, v) ∈ props ∧ ∀ kv ∈ props, foldEq kv.1 tag = true → kv = (tag, v)

theorem foldEq_refl (t : String) : foldEq t t = true := by
  simp [foldEq]

theorem mem_insertSorted (q p : String × String) (l : List (String × String)) :
    p ∈ insertSorted q l ↔ p = q ∨ p ∈ l := by
  induction l with
  | nil => simp [insertSorted]
  | cons r rest ih =>
    simp only [insertSorted]
    by_cases hle : keyLe q.1 r.1 = true
    · rw [if_pos hle]
      simp [List.mem_cons]
    · rw [if_neg hle]
      simp only [List.mem_cons, ih]
      tauto

theorem mem_sortByKey (l : List (String × String)) (p : String × String) :
    p ∈ sortByKey l ↔ p ∈ l := by
  induction l with
  | nil => simp [sortByKey]
  | cons q rest ih =>
    simp only [sortByKey, List.foldr_cons] at ih ⊢
    rw [mem_insertSorted, ih, List.mem_cons]

theorem foldAssign_all_eq (tag v : String) (l : List (String × String)) (acc : String)
    (hall : ∀ kv ∈ l, foldEq kv.1 tag = true → kv.2 = v) (hacc : acc = v) :
    l.foldl (fun acc kv => if foldEq kv.1 tag then kv.2 else acc) acc = v := by
  induction l generalizing acc with
  | nil => exact hacc
  | cons q rest ih =>
    simp only [List.foldl_cons]
    by_cases hq : foldEq q.1 tag = true
    · rw [if_pos hq]
      exact ih _ (fun kv h hm => hall kv (List.mem_cons_of_mem _ h) hm)
        (hall q (List.mem_cons_self _ _) hq)
    · rw [if_neg hq]
      exact ih _ (fun kv h hm => hall kv (List.mem_cons_of_mem _ h) hm) hacc

theorem foldAssign_mem (tag v : String) (l : List (String × String)) (acc : String)
    (hmem : (tag, v) ∈ l)
    (hall : ∀ kv ∈ l, foldEq kv.1 tag = true → kv = (tag, v)) :
    l.foldl (fun acc kv => if foldEq kv.1 tag then kv.2 else acc) acc = v := by
  induction l generalizing acc with
  | nil => cases hmem
  | cons q rest ih =>
    simp only [List.foldl_cons]
    by_cases hq : foldEq q.1 tag = true
    · rw [if_pos hq]
      have hqv : q = (tag, v) := hall q (List.mem_cons_self _ _) hq
      subst hqv
      exact foldAssign_all_eq tag v rest _
        (fun kv h hm => congrArg Prod.snd (hall kv (List.mem_cons_of_mem _ h) hm)) rfl
    · rw [if_neg hq]
      have hne : q ≠ (tag, v) := by
        rintro rfl
        exact hq (foldEq_refl tag)
      rcases List.mem_cons.mp hmem with h | h
      · exact absurd h.symm hne
      · exact ih _ h (fun kv hk hm => hall kv (List.mem_cons_of_mem _ hk) hm)

theorem fieldValue_soleMatch (props : List (String × String)) (tag v : String)
    (h : soleMatch props tag v) : fieldValue tag props = v := by
  obtain ⟨hmem, hall⟩ := h
  exact foldAssign_mem tag v (sortByKey props) "" ((mem_sortByKey _ _).2 hmem)
    (fun kv hk => hall kv ((mem_sortByKey _ _).1 hk))

theorem fieldValue_noMatch (props : List (String × String)) (tag : String)
    (h : ∀ kv ∈ props, foldEq kv.1 tag = false) : fieldValue tag props = "" := by
  refine foldAssign_all_eq tag "" (sortByKey props) "" ?_ rfl
  intro kv hk hm
  have := h kv ((mem_sortByKey _ _).1 hk)
  rw [this] at hm
  cases hm

end AliOss

namespace AliOss

/-- C1: a Get with a non-empty key whose object fetch fails with a
ServiceError carrying HTTP status 404 and code NoSuchKey returns the
empty response (no data, no metadata) and no error. -/
theorem get_notFound_returns_empty (o : GetOracle) (req : InvokeRequest) (k : String)
    (hk : requiredKey req.metadata = some k)
    (hb : o.bucketErr = none)
    (hg : o.getObject = .error (.service ⟨404, "NoSuchKey"⟩)) :
    (get o req).1 = .ok emptyResponse := by
  simp [get, hk, hb, hg]

/-- Witness for C1 at a concrete oracle and request. -/
theorem get_notFound_returns_empty_witness :
    (get ⟨none, .error (.service ⟨404, "NoSuchKey"⟩), none, .ok []⟩
       ⟨"get", [], [("key", "missing.txt")]⟩).1 = .ok emptyResponse :=
  get_notFound_returns_empty _ _ "missing.txt" (by decide) rfl rfl

/-- C2: evaluation of `get` at a fetch failure that is a ServiceError but
not the not-found condition (HTTP 403, code AccessDenied).  The source
falls out of the `if err != nil` block and dereferences the nil body
handle (a runtime panic), instead of returning a wrapped StorageReadError
as the specification states. -/
theorem get_serviceError_fallthrough_eval :
    get ⟨none, .error (.service ⟨403, "AccessDenied"⟩), none, .ok []⟩
      ⟨"get", [], [("key", "a.txt")]⟩
    = (.crash, [.bucketCall, .getObjectCall]) := by decide

/-- C3: in every execution of `get` that acquires the response body
handle, the handle is closed on every exit path.  (On the not-found
short-circuit no handle is acquired, since `GetObject` returns a nil
body together with its error, so the property holds there vacuously.) -/
theorem get_body_acquired_implies_closed (o : GetOracle) (req : InvokeRequest)
    (h : Event.acquireBody ∈ (get o req).2) :
    Event.closeBody ∈ (get o req).2 := by
  obtain ⟨hb, hg, hr, hm⟩ := o
  rcases hk : requiredKey req.metadata with _ | k <;>
  rcases hb with _ | be <;>
  rcases hg with ⟨se | gm⟩ | body <;>
  rcases hr with _ | re <;>
  rcases hm with me | meta <;>
  simp_all [get, apply_ite Prod.snd]

/-- Witness for C3: a concrete successful Get acquires the body and the
trace contains the close event. -/
theorem get_body_acquired_implies_closed_witness :
    Event.closeBody ∈ (get ⟨none, .ok [104, 105], none, .ok [("Content-Type", ["text/plain"])]⟩
      ⟨"get", [], [("key", "a.txt")]⟩).2 :=
  get_body_acquired_implies_closed _ _ (by decide)

/-- C4: Get and Delete invoked with metadata lacking a `key` entry, or
with `key` equal to the empty string, fail with the missing-key error
and perform no SDK call at all (empty event trace). -/
theorem missing_key_fails_fast (go : GetOracle) (dOr : DeleteOracle) (req : InvokeRequest)
    (h : lookupMeta req.metadata "key" = none ∨ lookupMeta req.metadata "key" = some "") :
    get go req = (.err "alicloud oss binding error: can't read key value", []) ∧
    delete dOr req = (.err "alicloud oss binding error: can't read key value", []) := by
  have hk : requiredKey req.metadata = none := by
    rcases h with h | h <;> simp [requiredKey, h]
  exact ⟨by simp [get, hk], by simp [delete, hk]⟩

/-- Witness for C4 at a request whose metadata has an empty `key`. -/
theorem missing_key_fails_fast_witness :
    get ⟨none, .ok [], none, .ok []⟩ ⟨"get", [], [("key", "")]⟩
      = (.err "alicloud oss binding error: can't read key value", []) ∧
    delete ⟨none, none⟩ ⟨"delete", [], [("key", "")]⟩
      = (.err "alicloud oss binding error: can't read key value", []) := by
  refine ⟨(missing_key_fails_fast ⟨none, .ok [], none, .ok []⟩ ⟨none, none⟩
    ⟨"get", [], [("key", "")]⟩ (Or.inr (by decide))).1, ?_⟩
  exact (missing_key_fails_fast ⟨none, .ok [], none, .ok []⟩ ⟨none, none⟩
    ⟨"delete", [], [("key", "")]⟩ (Or.inr (by decide))).2

/-- C5: a successful Create stores the object under the request's `key`
metadata value with body equal to the request data; every metadata entry
other than `key` (and only those) is attached as custom metadata; the
response is empty. -/
theorem create_stores_key_data_metadata (o : CreateOracle) (gen : String)
    (req : InvokeRequest) (k : String)
    (hk : lookupMeta req.metadata "key" = some k) (hne : k ≠ "")
    (hb : o.bucketErr = none) (hp : o.putErr = none) :
    create o gen req = (.ok emptyResponse,
      [.bucketCall, .putObjectCall k req.data (collectOptions req.metadata)]) ∧
    (∀ p ∈ req.metadata, p.1 ≠ "key" → p ∈ collectOptions req.metadata) ∧
    (∀ p ∈ collectOptions req.metadata, p.1 ≠ "key" ∧ p ∈ req.metadata) := by
  refine ⟨by simp [create, hk, hne, hb, hp], ?_, ?_⟩
  · intro p hmem hpk
    exact (mem_collectOptions _ _).2 ⟨hpk, hmem⟩
  · intro p hmem
    exact (mem_collectOptions _ _).1 hmem

/-- Witness for C5: the spec's scenario, Create with metadata
key = a.txt, owner = bob and data "hello". -/
theorem create_stores_key_data_metadata_witness :
    create ⟨none, none⟩ "unused"
      ⟨"create", [104, 101, 108, 108, 111], [("key", "a.txt"), ("owner", "bob")]⟩
      = (.ok emptyResponse, [.bucketCall,
          .putObjectCall "a.txt" [104, 101, 108, 108, 111] [("owner", "bob")]]) :=
  ((create_stores_key_data_metadata ⟨none, none⟩ "unused"
      ⟨"create", [104, 101, 108, 108, 111], [("key", "a.txt"), ("owner", "bob")]⟩
      "a.txt" (by decide) (by decide) rfl rfl).1).trans (by decide)

/-- C6: a Create whose metadata has no `key` entry (or an empty one)
stores the object under the generated identifier; that identifier is
never empty; and the success response is empty, so the generated key is
not returned to the caller. -/
theorem create_generated_key (o : CreateOracle) (bs : List Nat) (req : InvokeRequest)
    (hk : lookupMeta req.metadata "key" = none ∨ lookupMeta req.metadata "key" = some "")
    (hb : o.bucketErr = none) (hp : o.putErr = none) :
    create o (uuidString bs) req = (.ok emptyResponse,
      [.bucketCall, .putObjectCall (uuidString bs) req.data (collectOptions req.metadata)]) ∧
    uuidString bs ≠ "" := by
  refine ⟨?_, uuidString_ne_empty bs⟩
  rcases hk with h | h <;> simp [create, h, hb, hp]

/-- Witness for C6 at the all-zero identifier bytes and a keyless request. -/
theorem create_generated_key_witness :
    create ⟨none, none⟩ (uuidString (List.replicate 16 0)) ⟨"create", [1], []⟩
      = (.ok emptyResponse, [.bucketCall,
          .putObjectCall (uuidString (List.replicate 16 0)) [1] (collectOptions [])]) ∧
    uuidString (List.replicate 16 0) ≠ "" :=
  create_generated_key ⟨none, none⟩ (List.replicate 16 0) ⟨"create", [1], []⟩
    (Or.inl rfl) rfl rfl

/-- C8: a List whose decoded query has maxKeys 0 behaves identically to
one whose query has maxKeys 1000, and any listing call it issues carries
maxKeys 1000. -/
theorem list_maxKeys_zero_defaults (o : ListOracle) (p : listPayload)
    (h : p.maxKeys = 0) :
    list o (.ok p) = list o (.ok { p with maxKeys := 1000 }) ∧
    (∀ pf mk mx dl, Event.listObjectsCall pf mk mx dl ∈ (list o (.ok p)).2 → mx = 1000) := by
  obtain ⟨mk0, pf0, mx0, dl0⟩ := p
  have h0 : mx0 = 0 := h
  subst h0
  cases hb : o.bucketErr with
  | some e =>
    refine ⟨by simp [list, hb], ?_⟩
    intro pf mk mx dl hmem
    simp [list, hb] at hmem
  | none =>
    cases hlo : o.listObjects pf0 mk0 1000 dl0 with
    | error e =>
      refine ⟨by simp [list, hb, hlo], ?_⟩
      intro pf mk mx dl hmem
      simp [list, hb, hlo] at hmem
      exact hmem.2.2.1
    | ok result =>
      cases hm : o.marshal result with
      | error e =>
        refine ⟨by simp [list, hb, hlo, hm], ?_⟩
        intro pf mk mx dl hmem
        simp [list, hb, hlo, hm] at hmem
        exact hmem.2.2.1
      | ok bytes =>
        refine ⟨by simp [list, hb, hlo, hm], ?_⟩
        intro pf mk mx dl hmem
        simp [list, hb, hlo, hm] at hmem
        exact hmem.2.2.1

/-- Witness for C8 at a concrete oracle and the query of the spec's
scenario with maxkeys 0. -/
theorem list_maxKeys_zero_defaults_witness :
    list ⟨none, fun _ _ _ _ => .ok ⟨[7]⟩, fun r => .ok r.raw⟩ (.ok ⟨"", "logs/", 0, ""⟩)
      = list ⟨none, fun _ _ _ _ => .ok ⟨[7]⟩, fun r => .ok r.raw⟩
          (.ok ⟨"", "logs/", 1000, ""⟩) :=
  (list_maxKeys_zero_defaults ⟨none, fun _ _ _ _ => .ok ⟨[7]⟩, fun r => .ok r.raw⟩
    ⟨"", "logs/", 0, ""⟩ rfl).1

/-- C9: an Invoke whose operation is none of create, get, delete, list
returns an error whose message contains the offending operation name,
and performs no handler or SDK call (empty event trace). -/
theorem invoke_unsupported_operation (o : Oracles) (req : InvokeRequest)
    (h1 : req.operation ≠ "create") (h2 : req.operation ≠ "get")
    (h3 : req.operation ≠ "delete") (h4 : req.operation ≠ "list") :
    Invoke o req
      = (.err ("aliyun oss binding error. unsupported operation " ++ req.operation), []) ∧
    (∃ pre post, "aliyun oss binding error. unsupported operation " ++ req.operation
      = pre ++ req.operation ++ post) := by
  refine ⟨by simp [Invoke, h1, h2, h3, h4],
    ⟨"aliyun oss binding error. unsupported operation ", "", ?_⟩⟩
  simp

/-- Witness for C9 at the unsupported operation `copy`. -/
theorem invoke_unsupported_operation_witness :
    Invoke ⟨⟨none, none⟩, "g", ⟨none, .ok [], none, .ok []⟩, ⟨none, none⟩,
        ⟨none, fun _ _ _ _ => .ok ⟨[]⟩, fun r => .ok r.raw⟩, .ok ⟨"", "", 0, ""⟩⟩
      ⟨"copy", [], []⟩
      = (.err ("aliyun oss binding error. unsupported operation " ++ "copy"), []) ∧
    (∃ pre post, "aliyun oss binding error. unsupported operation " ++ "copy"
      = pre ++ "copy" ++ post) :=
  invoke_unsupported_operation _ ⟨"copy", [], []⟩
    (by decide) (by decide) (by decide) (by decide)

/-- C10: Init is atomic on the adapter state: if parsing or client
construction fails it returns that error and leaves both stored fields
unchanged; only when both succeed are the two fields assigned, together. -/
theorem init_atomic (s : AliCloudOSS) (p : Except String ossMetadata)
    (g : ossMetadata → Except String Nat) :
    (∀ e, p = .error e → Init s p g = (s, some e)) ∧
    (∀ m e, p = .ok m → g m = .error e → Init s p g = (s, some e)) ∧
    (∀ m c, p = .ok m → g m = .ok c →
      Init s p g = ({ s with metadata := some m, client := some c }, none)) := by
  refine ⟨?_, ?_, ?_⟩ <;> intros <;> simp_all [Init]

/-- Witness for C10: a failing client construction leaves the fresh
(nil, nil) state unchanged. -/
theorem init_atomic_witness :
    Init ⟨none, none⟩ (.ok ⟨"e", "id", "k", "b"⟩) (fun _ => .error "bad endpoint")
      = (⟨none, none⟩, some "bad endpoint") :=
  (init_atomic ⟨none, none⟩ (.ok ⟨"e", "id", "k", "b"⟩)
    (fun _ => .error "bad endpoint")).2.1 ⟨"e", "id", "k", "b"⟩ "bad endpoint" rfl rfl

/-- C7 counterexample: a property map that contains all four recognized
keys (accessKeyID with value a) plus the unknown key accesskeyid.  The
claim says unknown keys are ignored and the accessKeyID field equals a;
in fact the decoder matches keys case-insensitively, the marshalled
(sorted) order puts accesskeyid after accessKeyID, and the later entry
overwrites, so the field is z, not a. -/
theorem parseMetadata_case_counterexample :
    (("accessKeyID", "a") ∈ ([("endpoint", "e"), ("accessKeyID", "a"), ("accessKey", "k"),
        ("bucket", "b"), ("accesskeyid", "z")] : List (String × String))) ∧
    (parseMetadata [("endpoint", "e"), ("accessKeyID", "a"), ("accessKey", "k"),
        ("bucket", "b"), ("accesskeyid", "z")]).accessKeyID = "z" ∧
    ("z" : String) ≠ "a" := by
  refine ⟨by decide, by decide, by decide⟩

/-- C7 (amended): for every property map in which each recognized key is
present and is the only key matching it case-insensitively, parsing
succeeds and the four configuration fields equal the corresponding input
values (keys matching no recognized tag are ignored); a tag with no
case-insensitive match in the map yields an empty-string field. -/
theorem parseMetadata_roundtrip_amended :
    (∀ props e a k b, soleMatch props "endpoint" e → soleMatch props "accessKeyID" a →
        soleMatch props "accessKey" k → soleMatch props "bucket" b →
        parseMetadata props = ⟨e, a, k, b⟩) ∧
    (∀ props tag, (∀ kv ∈ props, foldEq kv.1 tag = false) → fieldValue tag props = "") := by
  constructor
  · intro props e a k b h1 h2 h3 h4
    unfold parseMetadata
    rw [fieldValue_soleMatch _ _ _ h1, fieldValue_soleMatch _ _ _ h2,
        fieldValue_soleMatch _ _ _ h3, fieldValue_soleMatch _ _ _ h4]
  · intro props tag h
    exact fieldValue_noMatch props tag h

/-- Witness for C7: the four recognized keys plus one genuinely unknown
key parse to exactly the four input values. -/
theorem parseMetadata_roundtrip_amended_witness :
    parseMetadata [("endpoint", "E"), ("accessKeyID", "A"), ("accessKey", "K"),
        ("bucket", "B"), ("other", "x")] = ⟨"E", "A", "K", "B"⟩ :=
  parseMetadata_roundtrip_amended.1 _ "E" "A" "K" "B"
    (by decide) (by decide) (by decide) (by decide)

end AliOss
